import Mathlib

/-!
Verification model of the yakumo routing service (src/main.py).

The service drives nftables through subprocess calls.  We embed the
provider state as `NftState` (nat table, chains, ordered rule list) and
abstract the success or failure of each subprocess invocation by a
boolean oracle `Nat → Bool` indexed by the position of the call inside
the sequence being run.  Pure data is translated directly:
`PortManager` (free Finset plus session-to-port table) and
`ProxyManager` (session table).  The FastAPI endpoints are modelled as
state-passing functions returning an explicit result variant.
-/

/-- Protocols appearing in nft rules issued by main.py. -/
inductive Proto
  | udp
  | tcp
deriving DecidableEq

/-- The shapes of nft rules main.py ever adds: DNAT redirect rules inside a
session chain, a jump (dispatch) rule in PREROUTING, and masquerade
return-path rules in POSTROUTING. -/
inductive NftRule
  | dnat (proto : Proto) (ingress : Nat) (tip : String) (tport : Int)
  | jump (chain : String)
  | masq (proto : Proto) (tip : String) (tport : Int)
deriving DecidableEq

/-- The nft subprocess commands main.py issues (modulo the read-only
existence checks, which are modelled as state reads). -/
inductive NftCmd
  | addTable
  | addHookChain (name : String)
  | addChain (name : String)
  | addRule (chain : String) (r : NftRule)
  | deleteRule (chain : String) (r : NftRule)
  | flushChain (name : String)
  | deleteChain (name : String)
deriving DecidableEq

/-- Provider-side state: whether the ip nat table exists, which chains
exist, and the rules (chain, rule), in insertion order, as a multiset
represented by a list. -/
structure NftState where
  natTable : Bool
  chains : List String
  rules : List (String × NftRule)
deriving DecidableEq

/-- Effect of one successful nft command on provider state. -/
def NftState.applyCmd (s : NftState) : NftCmd → NftState
  | NftCmd.addTable => { s with natTable := true }
  | NftCmd.addHookChain n =>
      if n ∈ s.chains then s else { s with chains := s.chains ++ [n] }
  | NftCmd.addChain n =>
      if n ∈ s.chains then s else { s with chains := s.chains ++ [n] }
  | NftCmd.addRule c r => { s with rules := s.rules ++ [(c, r)] }
  | NftCmd.deleteRule c r => { s with rules := s.rules.erase (c, r) }
  | NftCmd.flushChain n =>
      { s with rules := s.rules.filter (fun pr => ! decide (pr.1 = n)) }
  | NftCmd.deleteChain n =>
      { s with chains := s.chains.filter (fun m => ! decide (m = n)) }

/-- Run a command list the way `_run_nft_command` sequences are run inside a
try block: command number i succeeds iff `env i`; on the first failure the
remaining commands are not issued.  Returns the final state, the commands
actually issued (the failing one included), and the index of the failing
command if any. -/
def runSeq (env : Nat → Bool) : Nat → NftState → List NftCmd → NftState × List NftCmd × Option Nat
  | _, s, [] => (s, [], none)
  | i, s, c :: cs =>
    if env i then
      ((runSeq env (i + 1) (s.applyCmd c) cs).1,
       c :: (runSeq env (i + 1) (s.applyCmd c) cs).2.1,
       (runSeq env (i + 1) (s.applyCmd c) cs).2.2)
    else (s, [c], some i)

/-- Run a command list with check=False semantics (`_cleanup_proxy_rules`):
every command is issued, a failing command simply has no effect. -/
def runBestEffort (env : Nat → Bool) : Nat → NftState → List NftCmd → NftState × List NftCmd
  | _, s, [] => (s, [])
  | i, s, c :: cs =>
    ((runBestEffort env (i + 1) (if env i then s.applyCmd c else s) cs).1,
     c :: (runBestEffort env (i + 1) (if env i then s.applyCmd c else s) cs).2)

/-- Model of the Python expression session_id.replace with a single dash
pattern: character-wise replacement of dashes by underscores. -/
def replaceDashes (s : String) : String :=
  String.mk (s.data.map (fun c => if c = '-' then '_' else c))

/-- chain_name = "proxy_" + session_id.replace(dash, underscore). -/
def chainName (sid : String) : String :=
  "proxy_" ++ replaceDashes sid

/-- Python dict assignment d[k] = v on an insertion-ordered table. -/
def dictInsert {α : Type} (l : List (String × α)) (k : String) (v : α) : List (String × α) :=
  if l.any (fun e => decide (e.1 = k)) then
    l.map (fun e => if e.1 = k then (k, v) else e)
  else l ++ [(k, v)]

/-- Python dict lookup d.get(k) on an insertion-ordered table. -/
def dictLookup {α : Type} (k : String) : List (String × α) → Option α
  | [] => none
  | e :: rest => if e.1 = k then some e.2 else dictLookup k rest

/-- PortManager from main.py: a free-port set built as set(range(start, end))
and a session-id-to-port dict. -/
structure PortManager where
  available_ports : Finset Nat
  allocated : List (String × Nat)
deriving DecidableEq

/-- PortManager.__init__ with its default arguments 10000 and 20000;
set(range(a, b)) is the half-open interval. -/
def PortManager.init (start_port : Nat := 10000) (end_port : Nat := 20000) : PortManager :=
  { available_ports := Finset.Ico start_port end_port, allocated := [] }

/-- PortManager.allocate: pops one arbitrary port p (the caller must pick a
member of the free set; set.pop raises only on an empty set, which the
endpoint guards against) and records it under the session id. -/
def PortManager.allocate (pm : PortManager) (sid : String) (p : Nat) : PortManager :=
  { available_ports := pm.available_ports.erase p,
    allocated := dictInsert pm.allocated sid p }

/-- PortManager.release: if the session id has an allocated port, move it
back to the free set; otherwise log a warning and do nothing. -/
def PortManager.release (pm : PortManager) (sid : String) : PortManager :=
  match dictLookup sid pm.allocated with
  | some p =>
      { available_ports := insert p pm.available_ports,
        allocated := pm.allocated.filter (fun e => ! decide (e.1 = sid)) }
  | none => pm

/-- One entry of ProxyManager.proxies: (ingress_port, target_ip, target_port,
chain_name). -/
structure ProxyEntry where
  ingress_port : Nat
  target_ip : String
  target_port : Int
  chain_name : String
deriving DecidableEq

/-- ProxyManager from main.py: the session table. -/
structure ProxyManager where
  proxies : List (String × ProxyEntry)
deriving DecidableEq

/-- Outcome of ProxyManager.open_proxy: ok, one of the three HTTP 400
validation rejections, or the HTTP 500 raised after a failed nft step. -/
inductive OpenOutcome
  | ok
  | invalidIP
  | invalidTargetPort
  | invalidIngressPort
  | provisioningError
deriving DecidableEq

/-- Result of ProxyManager.open_proxy: outcome, updated session table,
updated provider state, the install commands issued, and the cleanup
commands issued (empty on success). -/
structure OpenProxyResult where
  outcome : OpenOutcome
  pm : ProxyManager
  nft : NftState
  installIssued : List NftCmd
  cleanupIssued : List NftCmd
deriving DecidableEq

/-- The six-step install sequence of open_proxy, in source order. -/
def installCmds (ingress : Nat) (tip : String) (tport : Int) (chain : String) : List NftCmd :=
  [NftCmd.addChain chain,
   NftCmd.addRule chain (NftRule.dnat Proto.udp ingress tip tport),
   NftCmd.addRule chain (NftRule.dnat Proto.tcp ingress tip tport),
   NftCmd.addRule "PREROUTING" (NftRule.jump chain),
   NftCmd.addRule "POSTROUTING" (NftRule.masq Proto.udp tip tport),
   NftCmd.addRule "POSTROUTING" (NftRule.masq Proto.tcp tip tport)]

/-- The fixed cleanup sequence of _cleanup_proxy_rules: the POSTROUTING
delete is only issued when target info was passed. -/
def cleanupCmds (chain : String) : Option (String × Int) → List NftCmd
  | some (tip, tport) =>
      [NftCmd.deleteRule "POSTROUTING" (NftRule.masq Proto.udp tip tport),
       NftCmd.flushChain chain,
       NftCmd.deleteChain chain]
  | none => [NftCmd.flushChain chain, NftCmd.deleteChain chain]

/-- ProxyManager.open_proxy: validate, then run the install sequence inside
a try block; on the first failing step run the best-effort cleanup and
re-raise; on success record the session. -/
def ProxyManager.openProxy (ipOk : String → Bool) (env cenv : Nat → Bool)
    (pm : ProxyManager) (s : NftState) (sid : String)
    (ingress : Nat) (tip : String) (tport : Int) : OpenProxyResult :=
  if ipOk tip = false then
    ⟨OpenOutcome.invalidIP, pm, s, [], []⟩
  else if ¬ (1 ≤ tport ∧ tport ≤ 65535) then
    ⟨OpenOutcome.invalidTargetPort, pm, s, [], []⟩
  else if ¬ (1024 ≤ ingress ∧ ingress ≤ 65535) then
    ⟨OpenOutcome.invalidIngressPort, pm, s, [], []⟩
  else
    match (runSeq env 0 s (installCmds ingress tip tport (chainName sid))).2.2 with
    | none =>
        ⟨OpenOutcome.ok,
         ⟨dictInsert pm.proxies sid ⟨ingress, tip, tport, chainName sid⟩⟩,
         (runSeq env 0 s (installCmds ingress tip tport (chainName sid))).1,
         (runSeq env 0 s (installCmds ingress tip tport (chainName sid))).2.1,
         []⟩
    | some _ =>
        ⟨OpenOutcome.provisioningError,
         pm,
         (runBestEffort cenv 0 (runSeq env 0 s (installCmds ingress tip tport (chainName sid))).1
           (cleanupCmds (chainName sid) (some (tip, tport)))).1,
         (runSeq env 0 s (installCmds ingress tip tport (chainName sid))).2.1,
         (runBestEffort cenv 0 (runSeq env 0 s (installCmds ingress tip tport (chainName sid))).1
           (cleanupCmds (chainName sid) (some (tip, tport)))).2⟩

/-- The teardown sequence of ProxyManager.close_proxy, in source order:
delete the UDP masquerade rule, flush the chain, delete the chain. -/
def teardownCmds (e : ProxyEntry) : List NftCmd :=
  [NftCmd.deleteRule "POSTROUTING" (NftRule.masq Proto.udp e.target_ip e.target_port),
   NftCmd.flushChain e.chain_name,
   NftCmd.deleteChain e.chain_name]

/-- Result of ProxyManager.close_proxy: updated tables, the teardown
commands issued, and whether an exception was caught and logged. -/
structure CloseProxyResult where
  pm : ProxyManager
  nft : NftState
  issued : List NftCmd
  errored : Bool
deriving DecidableEq

/-- ProxyManager.close_proxy: pop the session, then run the teardown
commands inside one try block (so the first failing step aborts the rest);
any exception is caught and only logged. -/
def ProxyManager.closeProxy (tenv : Nat → Bool) (pm : ProxyManager) (s : NftState)
    (sid : String) : CloseProxyResult :=
  match dictLookup sid pm.proxies with
  | none => ⟨pm, s, [], false⟩
  | some e =>
      ⟨⟨pm.proxies.filter (fun x => ! decide (x.1 = sid))⟩,
       (runSeq tenv 0 s (teardownCmds e)).1,
       (runSeq tenv 0 s (teardownCmds e)).2.1,
       (runSeq tenv 0 s (teardownCmds e)).2.2.isSome⟩

/-- ProxyManager.list_proxies: session id with ingress port and target
endpoint, internal chain name omitted. -/
def ProxyManager.listProxies (pm : ProxyManager) : List (String × Nat × String × Int) :=
  pm.proxies.map (fun e => (e.1, e.2.ingress_port, e.2.target_ip, e.2.target_port))

/-- Whole-service state: the two module-level singletons plus the provider. -/
structure SysState where
  ports : PortManager
  proxies : ProxyManager
  nft : NftState
deriving DecidableEq

/-- Result variants of the open_proxy endpoint: success payload, pydantic
rejection of the request body, an HTTP 400 from the inner validation, 503
port exhaustion, or the HTTP 500 provisioning failure. -/
inductive ApiOpenResult
  | ok (sid : String) (ingress : Nat)
  | validationError
  | badRequest
  | resourceExhausted
  | provisioningError
deriving DecidableEq

/-- The open_proxy endpoint body: allocate a port for a fresh session id,
then call ProxyManager.open_proxy; any exception is logged and re-raised
with no release of the allocated port. -/
def openEndpoint (ipOk : String → Bool) (env cenv : Nat → Bool)
    (st : SysState) (sid : String) (p : Nat) (tip : String) (tport : Int) :
    ApiOpenResult × SysState :=
  if st.ports.available_ports = ∅ then (ApiOpenResult.resourceExhausted, st)
  else
    match ProxyManager.openProxy ipOk env cenv st.proxies st.nft sid p tip tport with
    | ⟨OpenOutcome.ok, pm2, nft2, _, _⟩ =>
        (ApiOpenResult.ok sid p, ⟨st.ports.allocate sid p, pm2, nft2⟩)
    | ⟨OpenOutcome.provisioningError, pm2, nft2, _, _⟩ =>
        (ApiOpenResult.provisioningError, ⟨st.ports.allocate sid p, pm2, nft2⟩)
    | ⟨_, pm2, nft2, _, _⟩ =>
        (ApiOpenResult.badRequest, ⟨st.ports.allocate sid p, pm2, nft2⟩)

/-- The full open pipeline: pydantic ProxyRequest validation (ip literal
check and target_port between 1 and 65535) gates the endpoint body; a
rejected body changes no state. -/
def openApi (ipOk : String → Bool) (env cenv : Nat → Bool)
    (st : SysState) (sid : String) (p : Nat) (tip : String) (tport : Int) :
    ApiOpenResult × SysState :=
  if ipOk tip = true ∧ 1 ≤ tport ∧ tport ≤ 65535 then
    openEndpoint ipOk env cenv st sid p tip tport
  else (ApiOpenResult.validationError, st)

/-- Result variants of the close_proxy endpoint. -/
inductive ApiCloseResult
  | closed
  | notFound
deriving DecidableEq

/-- The close_proxy endpoint body: 404 when the session id is unknown,
otherwise ProxyManager.close_proxy followed by PortManager.release, always
answering closed. -/
def closeEndpoint (tenv : Nat → Bool) (st : SysState) (sid : String) :
    ApiCloseResult × SysState :=
  if (dictLookup sid st.proxies.proxies).isSome = false then (ApiCloseResult.notFound, st)
  else
    (ApiCloseResult.closed,
     ⟨st.ports.release sid,
      (ProxyManager.closeProxy tenv st.proxies st.nft sid).pm,
      (ProxyManager.closeProxy tenv st.proxies st.nft sid).nft⟩)

/-- All six provider rules of a session are present. -/
def fullyInstalled (e : ProxyEntry) (s : NftState) : Prop :=
  e.chain_name ∈ s.chains ∧
  (e.chain_name, NftRule.dnat Proto.udp e.ingress_port e.target_ip e.target_port) ∈ s.rules ∧
  (e.chain_name, NftRule.dnat Proto.tcp e.ingress_port e.target_ip e.target_port) ∈ s.rules ∧
  ("PREROUTING", NftRule.jump e.chain_name) ∈ s.rules ∧
  ("POSTROUTING", NftRule.masq Proto.udp e.target_ip e.target_port) ∈ s.rules ∧
  ("POSTROUTING", NftRule.masq Proto.tcp e.target_ip e.target_port) ∈ s.rules

instance (e : ProxyEntry) (s : NftState) : Decidable (fullyInstalled e s) := by
  unfold fullyInstalled
  exact inferInstance

/-- Third block of _ensure_nftables_setup: check for the POSTROUTING chain
and create it only when the check fails; oracle index i decides whether the
creating subprocess call succeeds. -/
def ensurePost (env : Nat → Bool) (s : NftState) (cs : List NftCmd) (i : Nat) :
    Except Unit (NftState × List NftCmd) :=
  if "POSTROUTING" ∈ s.chains then Except.ok (s, cs)
  else if env i then
    Except.ok (s.applyCmd (NftCmd.addHookChain "POSTROUTING"),
      cs ++ [NftCmd.addHookChain "POSTROUTING"])
  else Except.error ()

/-- Second block of _ensure_nftables_setup: the PREROUTING chain. -/
def ensureChains (env : Nat → Bool) (s : NftState) (cs : List NftCmd) (i : Nat) :
    Except Unit (NftState × List NftCmd) :=
  if "PREROUTING" ∈ s.chains then ensurePost env s cs i
  else if env i then
    ensurePost env (s.applyCmd (NftCmd.addHookChain "PREROUTING"))
      (cs ++ [NftCmd.addHookChain "PREROUTING"]) (i + 1)
  else Except.error ()

/-- _ensure_nftables_setup: check-then-create for the nat table and the two
hook chains; the returned list holds exactly the create commands issued, and
an error means a create subprocess call failed (HTTP 500 at startup). -/
def ensureNftablesSetup (env : Nat → Bool) (s : NftState) :
    Except Unit (NftState × List NftCmd) :=
  if s.natTable then ensureChains env s [] 0
  else if env 0 then
    ensureChains env { s with natTable := true } [NftCmd.addTable] 1
  else Except.error ()

/-- Invariant I1 for the port pool: unique session keys, pairwise distinct
allocated ports, allocated ports disjoint from the free set, and free plus
allocated covering exactly the configured range. -/
def PortManager.inv (pm : PortManager) (rng : Finset Nat) : Prop :=
  (pm.allocated.map Prod.fst).Nodup ∧
  (pm.allocated.map Prod.snd).Nodup ∧
  (∀ p ∈ pm.allocated.map Prod.snd, p ∉ pm.available_ports) ∧
  pm.available_ports ∪ (pm.allocated.map Prod.snd).toFinset = rng

instance (pm : PortManager) (rng : Finset Nat) : Decidable (pm.inv rng) := by
  unfold PortManager.inv
  exact inferInstance

/-- Oracle under which every provider call succeeds. -/
def allTrue : Nat → Bool := fun _ => true

/-- Oracle under which every provider call fails. -/
def allFalse : Nat → Bool := fun _ => false

/-- IP validation stub accepting every literal, used at concrete inputs
whose target_ip the Python ipaddress module accepts. -/
def ipAlways : String → Bool := fun _ => true

/-- Provider state right after a successful bootstrap on a fresh host. -/
def bootNft : NftState := ⟨true, ["PREROUTING", "POSTROUTING"], []⟩

/-- Entry of an already-open session a forwarding 10000 to 10.0.0.5:51820. -/
def entryA : ProxyEntry := ⟨10000, "10.0.0.5", 51820, "proxy_a"⟩

/-- Session table holding only session a. -/
def pmA : ProxyManager := ⟨[("a", entryA)]⟩

/-- Provider state in which session a is fully installed. -/
def nftA : NftState :=
  ⟨true, ["PREROUTING", "POSTROUTING", "proxy_a"],
   [("proxy_a", NftRule.dnat Proto.udp 10000 "10.0.0.5" 51820),
    ("proxy_a", NftRule.dnat Proto.tcp 10000 "10.0.0.5" 51820),
    ("PREROUTING", NftRule.jump "proxy_a"),
    ("POSTROUTING", NftRule.masq Proto.udp "10.0.0.5" 51820),
    ("POSTROUTING", NftRule.masq Proto.tcp "10.0.0.5" 51820)]⟩

/-- Whole-service state with the single active session a. -/
def stA : SysState := ⟨⟨∅, [("a", 10000)]⟩, pmA, nftA⟩

/-- Fresh service state with a two-port pool, as in spec Scenario A. -/
def stB0 : SysState := ⟨⟨{10000, 10001}, []⟩, ⟨[]⟩, bootNft⟩

/-- State after successfully opening session a on port 10000. -/
def stB1 : SysState :=
  (openEndpoint ipAlways allTrue allTrue stB0 "a" 10000 "10.0.0.5" 51820).2

/-- State after a second open for session b (same target endpoint) whose
first install step fails: its cleanup deletes the UDP masquerade rule that
belonged to session a. -/
def stB2 : SysState :=
  (openEndpoint ipAlways (fun i => ! (i == 0)) allTrue stB1 "b" 10001 "10.0.0.5" 51820).2

/-! Generic lemmas about command execution and the dict model. -/

theorem runSeq_issued_of_none (env : Nat → Bool) (cs : List NftCmd) :
    ∀ (i : Nat) (s : NftState), (runSeq env i s cs).2.2 = none →
      (runSeq env i s cs).2.1 = cs ∧
      (runSeq env i s cs).1 = cs.foldl NftState.applyCmd s := by
  induction cs with
  | nil => intro i s _; simp [runSeq]
  | cons c cs ih =>
    intro i s h
    cases he : env i with
    | true =>
      simp only [runSeq, he, if_true] at h ⊢
      exact ⟨by simp [(ih (i + 1) (s.applyCmd c) h).1],
             by simp [(ih (i + 1) (s.applyCmd c) h).2]⟩
    | false => simp [runSeq, he] at h

theorem runSeq_failure (env : Nat → Bool) (cs : List NftCmd) :
    ∀ (i : Nat) (s : NftState) (k : Nat), k < cs.length →
      (∀ j, j < k → env (i + j) = true) → env (i + k) = false →
      (runSeq env i s cs).2.1 = cs.take (k + 1) ∧
      (runSeq env i s cs).2.2 = some (i + k) := by
  induction cs with
  | nil => intro i s k hk; simp at hk
  | cons c cs ih =>
    intro i s k hk hb hf
    cases k with
    | zero =>
      have hf0 : env i = false := by simpa using hf
      simp [runSeq, hf0]
    | succ k2 =>
      have h0 : env i = true := by simpa using hb 0 (Nat.succ_pos k2)
      have hb2 : ∀ j, j < k2 → env ((i + 1) + j) = true := by
        intro j hj
        have := hb (j + 1) (by omega)
        simpa [Nat.add_assoc, Nat.add_comm 1 j] using this
      have hf2 : env ((i + 1) + k2) = false := by
        simpa [Nat.add_assoc, Nat.add_comm 1 k2] using hf
      have hk2 : k2 < cs.length := by simpa using hk
      have := ih (i + 1) (s.applyCmd c) k2 hk2 hb2 hf2
      constructor
      · simp only [runSeq, h0, if_true, List.take]
        rw [this.1]
      · simp only [runSeq, h0, if_true]
        rw [this.2]
        congr 1
        omega

theorem runBestEffort_issued (env : Nat → Bool) (cs : List NftCmd) :
    ∀ (i : Nat) (s : NftState), (runBestEffort env i s cs).2 = cs := by
  induction cs with
  | nil => intro i s; simp [runBestEffort]
  | cons c cs ih => intro i s; simp [runBestEffort, ih]

theorem dictLookup_map_overwrite {α : Type} (k : String) (v : α) :
    ∀ (l : List (String × α)), l.any (fun e => decide (e.1 = k)) = true →
      dictLookup k (l.map (fun e => if e.1 = k then (k, v) else e)) = some v := by
  intro l
  induction l with
  | nil => intro h; simp at h
  | cons e rest ih =>
    intro h
    by_cases he : e.1 = k
    · simp [dictLookup, he]
    · have h2 : rest.any (fun e => decide (e.1 = k)) = true := by
        simpa [List.any_cons, he] using h
      simp [dictLookup, he, ih h2]

theorem dictLookup_append_fresh {α : Type} (k : String) (v : α) :
    ∀ (l : List (String × α)), l.any (fun e => decide (e.1 = k)) = false →
      dictLookup k (l ++ [(k, v)]) = some v := by
  intro l
  induction l with
  | nil => intro _; simp [dictLookup]
  | cons e rest ih =>
    intro h
    rw [List.any_cons] at h
    have he : ¬ (e.1 = k) := by
      intro hek
      simp [hek] at h
    have h2 : rest.any (fun e => decide (e.1 = k)) = false := by
      rcases Bool.or_eq_false_iff.mp h with ⟨_, h2⟩
      exact h2
    simp [dictLookup, he, ih h2]

theorem dictLookup_dictInsert {α : Type} (l : List (String × α)) (k : String) (v : α) :
    dictLookup k (dictInsert l k v) = some v := by
  unfold dictInsert
  cases h : l.any (fun e => decide (e.1 = k)) with
  | true => simpa [h] using dictLookup_map_overwrite k v l h
  | false => simpa [h] using dictLookup_append_fresh k v l h

theorem dictLookup_filter_self {α : Type} (k : String) :
    ∀ (l : List (String × α)),
      dictLookup k (l.filter (fun x => ! decide (x.1 = k))) = none := by
  intro l
  induction l with
  | nil => simp [dictLookup]
  | cons e rest ih =>
    by_cases he : e.1 = k
    · simp [List.filter_cons, he, ih]
    · simp [List.filter_cons, he, dictLookup, ih]

theorem dictInsert_fresh {α : Type} (l : List (String × α)) (k : String) (v : α)
    (h : k ∉ l.map Prod.fst) : dictInsert l k v = l ++ [(k, v)] := by
  unfold dictInsert
  have hany : l.any (fun e => decide (e.1 = k)) = false := by
    rw [List.any_eq_false]
    intro e hel
    simp only [decide_eq_true_eq]
    intro heq
    exact h (heq ▸ List.mem_map_of_mem Prod.fst hel)
  simp [hany]

theorem dictLookup_split {α : Type} (sid : String) (p : α) :
    ∀ (l : List (String × α)), (l.map Prod.fst).Nodup → dictLookup sid l = some p →
      ∃ l1 l2, l = l1 ++ (sid, p) :: l2 ∧
        (∀ q ∈ l1, ¬ (q.1 = sid)) ∧ (∀ q ∈ l2, ¬ (q.1 = sid)) := by
  intro l
  induction l with
  | nil => intro _ h; simp [dictLookup] at h
  | cons e rest ih =>
    intro hnd hl
    rw [List.map_cons, List.nodup_cons] at hnd
    by_cases he : e.1 = sid
    · have hep : e.2 = p := by simpa [dictLookup, he] using hl
      refine ⟨[], rest, ?_, by simp, ?_⟩
      · have heq : e = (sid, p) := by
          cases e
          simp_all
        simp [heq]
      · intro q hq heq
        exact hnd.1 (he ▸ heq ▸ List.mem_map_of_mem Prod.fst hq)
    · have hl2 : dictLookup sid rest = some p := by simpa [dictLookup, he] using hl
      obtain ⟨l1, l2, hEq, h1, h2⟩ := ih hnd.2 hl2
      refine ⟨e :: l1, l2, by simp [hEq], ?_, h2⟩
      intro q hq
      rcases List.mem_cons.mp hq with hq1 | hq2
      · exact hq1 ▸ he
      · exact h1 q hq2

/-! Port pool invariant lemmas. -/

theorem PortManager.inv_card (pm : PortManager) (rng : Finset Nat) (h : pm.inv rng) :
    pm.available_ports.card + pm.allocated.length = rng.card := by
  obtain ⟨hk, hs, hd, hu⟩ := h
  have hdisj : Disjoint pm.available_ports (pm.allocated.map Prod.snd).toFinset := by
    rw [Finset.disjoint_right]
    intro a ha
    exact hd a (List.mem_toFinset.mp ha)
  calc pm.available_ports.card + pm.allocated.length
      = pm.available_ports.card + (pm.allocated.map Prod.snd).toFinset.card := by
        rw [List.toFinset_card_of_nodup hs, List.length_map]
    _ = (pm.available_ports ∪ (pm.allocated.map Prod.snd).toFinset).card :=
        (Finset.card_union_of_disjoint hdisj).symm
    _ = rng.card := by rw [hu]

theorem PortManager.inv_allocate (pm : PortManager) (rng : Finset Nat) (h : pm.inv rng)
    (sid : String) (p : Nat) (hp : p ∈ pm.available_ports)
    (hfresh : sid ∉ pm.allocated.map Prod.fst) :
    (pm.allocate sid p).inv rng := by
  obtain ⟨hk, hs, hd, hu⟩ := h
  have hins : dictInsert pm.allocated sid p = pm.allocated ++ [(sid, p)] :=
    dictInsert_fresh _ _ _ hfresh
  unfold PortManager.allocate PortManager.inv
  rw [hins]
  refine ⟨?_, ?_, ?_, ?_⟩
  · rw [List.map_append]
    refine List.Nodup.append hk (by simp) ?_
    intro a haA haS
    simp only [List.map_cons, List.map_nil, List.mem_singleton] at haS
    exact hfresh (haS ▸ haA)
  · rw [List.map_append]
    refine List.Nodup.append hs (by simp) ?_
    intro a haA haS
    simp only [List.map_cons, List.map_nil, List.mem_singleton] at haS
    exact hd a haA (by rw [haS]; exact hp)
  · intro q hq
    rw [List.map_append] at hq
    rcases List.mem_append.mp hq with hq1 | hq2
    · intro hmem
      exact hd q hq1 (Finset.mem_of_mem_erase hmem)
    · simp only [List.map_cons, List.map_nil, List.mem_singleton] at hq2
      exact hq2 ▸ Finset.not_mem_erase p pm.available_ports
  · ext x
    rw [← hu]
    simp only [List.map_append, List.map_cons, List.map_nil, Finset.mem_union,
      Finset.mem_erase, List.mem_toFinset, List.mem_append, List.mem_singleton]
    constructor
    · rintro (⟨hne, hxa⟩ | hxs | rfl)
      · exact Or.inl hxa
      · exact Or.inr hxs
      · exact Or.inl hp
    · rintro (hxa | hxs)
      · by_cases hxp : x = p
        · exact Or.inr (Or.inr hxp)
        · exact Or.inl ⟨hxp, hxa⟩
      · exact Or.inr (Or.inl hxs)

theorem PortManager.inv_release (pm : PortManager) (rng : Finset Nat) (h : pm.inv rng)
    (sid : String) : (pm.release sid).inv rng := by
  obtain ⟨hk, hs, hd, hu⟩ := h
  unfold PortManager.release
  cases hlk : dictLookup sid pm.allocated with
  | none => exact ⟨hk, hs, hd, hu⟩
  | some p =>
    obtain ⟨l1, l2, hEq, h1, h2⟩ := dictLookup_split sid p pm.allocated hk hlk
    have hfilter : pm.allocated.filter (fun e => ! decide (e.1 = sid)) = l1 ++ l2 := by
      rw [hEq, List.filter_append, List.filter_cons]
      have hmid : (! decide ((sid, p).1 = sid)) = false := by simp
      rw [hmid]
      have hf1 : l1.filter (fun e => ! decide (e.1 = sid)) = l1 :=
        List.filter_eq_self.mpr (fun a ha => by simpa using h1 a ha)
      have hf2 : l2.filter (fun e => ! decide (e.1 = sid)) = l2 :=
        List.filter_eq_self.mpr (fun a ha => by simpa using h2 a ha)
      rw [hf1, hf2]
      simp
    rw [hEq, List.map_append, List.map_cons] at hk hs hd hu
    have hnd2 := hs
    rw [List.nodup_append] at hnd2
    have hpS1 : p ∉ l1.map Prod.snd := fun hmem =>
      hnd2.2.2 hmem (List.mem_cons_self p (l2.map Prod.snd))
    have hpS2 : p ∉ l2.map Prod.snd := (List.nodup_cons.mp hnd2.2.1).1
    unfold PortManager.inv
    rw [hfilter]
    refine ⟨?_, ?_, ?_, ?_⟩
    · rw [List.map_append]
      refine List.Nodup.sublist ?_ hk
      exact List.Sublist.append_left (List.sublist_cons_self _ _) _
    · rw [List.map_append]
      refine List.Nodup.sublist ?_ hs
      exact List.Sublist.append_left (List.sublist_cons_self _ _) _
    · intro q hq
      rw [List.map_append] at hq
      have hqbig : q ∈ l1.map Prod.snd ++ (sid, p).2 :: l2.map Prod.snd := by
        rcases List.mem_append.mp hq with hq1 | hq2
        · exact List.mem_append.mpr (Or.inl hq1)
        · exact List.mem_append.mpr (Or.inr (List.mem_cons_of_mem _ hq2))
      have hqav : q ∉ pm.available_ports := hd q hqbig
      have hqp : q ≠ p := by
        intro hqp
        rcases List.mem_append.mp hq with hq1 | hq2
        · exact hpS1 (hqp ▸ hq1)
        · exact hpS2 (hqp ▸ hq2)
      intro hmem
      rcases Finset.mem_insert.mp hmem with hcase | hcase
      · exact hqp hcase
      · exact hqav hcase
    · ext x
      rw [← hu]
      simp only [List.map_append, List.map_cons, Finset.mem_union, Finset.mem_insert,
        List.mem_toFinset, List.mem_append, List.mem_cons]
      tauto

/-! Effect of a fully successful install sequence, and bootstrap lemmas. -/

theorem fullyInstalled_install (s : NftState) (ingress : Nat) (tip : String) (tport : Int)
    (chain : String) :
    fullyInstalled ⟨ingress, tip, tport, chain⟩
      ((installCmds ingress tip tport chain).foldl NftState.applyCmd s) := by
  by_cases hc : chain ∈ s.chains <;>
    simp [fullyInstalled, installCmds, NftState.applyCmd, hc, List.mem_append]

theorem ensurePost_ok (env : Nat → Bool) (s : NftState) (cs : List NftCmd) (i : Nat)
    (s1 : NftState) (cs1 : List NftCmd)
    (h : ensurePost env s cs i = Except.ok (s1, cs1)) :
    s1.natTable = s.natTable ∧ (∀ m ∈ s.chains, m ∈ s1.chains) ∧
      "POSTROUTING" ∈ s1.chains := by
  unfold ensurePost at h
  by_cases hpost : "POSTROUTING" ∈ s.chains
  · rw [if_pos hpost] at h
    injection h with h
    injection h with h1 h2
    subst h1
    exact ⟨rfl, fun m hm => hm, hpost⟩
  · rw [if_neg hpost] at h
    cases he : env i with
    | false => rw [he] at h; simp at h
    | true =>
      rw [he] at h
      simp only [if_true] at h
      injection h with h
      injection h with h1 h2
      subst h1
      refine ⟨?_, ?_, ?_⟩
      · simp [NftState.applyCmd, if_neg hpost]
      · intro m hm
        simp [NftState.applyCmd, if_neg hpost, List.mem_append, hm]
      · simp [NftState.applyCmd, if_neg hpost]

theorem ensureChains_ok (env : Nat → Bool) (s : NftState) (cs : List NftCmd) (i : Nat)
    (s1 : NftState) (cs1 : List NftCmd)
    (h : ensureChains env s cs i = Except.ok (s1, cs1)) :
    s1.natTable = s.natTable ∧ "PREROUTING" ∈ s1.chains ∧
      "POSTROUTING" ∈ s1.chains := by
  unfold ensureChains at h
  by_cases hpre : "PREROUTING" ∈ s.chains
  · rw [if_pos hpre] at h
    obtain ⟨h1, h2, h3⟩ := ensurePost_ok env s cs i s1 cs1 h
    exact ⟨h1, h2 _ hpre, h3⟩
  · rw [if_neg hpre] at h
    cases he : env i with
    | false => rw [he] at h; simp at h
    | true =>
      rw [he] at h
      simp only [if_true] at h
      obtain ⟨h1, h2, h3⟩ := ensurePost_ok env _ _ _ s1 cs1 h
      have hmid : "PREROUTING" ∈ (s.applyCmd (NftCmd.addHookChain "PREROUTING")).chains := by
        simp [NftState.applyCmd, if_neg hpre]
      have hnat : (s.applyCmd (NftCmd.addHookChain "PREROUTING")).natTable = s.natTable := by
        simp [NftState.applyCmd, if_neg hpre]
      exact ⟨h1.trans hnat, h2 _ hmid, h3⟩

theorem ensureNftablesSetup_ok (env : Nat → Bool) (s : NftState)
    (s1 : NftState) (cs1 : List NftCmd)
    (h : ensureNftablesSetup env s = Except.ok (s1, cs1)) :
    s1.natTable = true ∧ "PREROUTING" ∈ s1.chains ∧ "POSTROUTING" ∈ s1.chains := by
  unfold ensureNftablesSetup at h
  by_cases htab : s.natTable
  · rw [if_pos htab] at h
    obtain ⟨h1, h2, h3⟩ := ensureChains_ok env s [] 0 s1 cs1 h
    exact ⟨h1.trans htab, h2, h3⟩
  · rw [if_neg htab] at h
    cases he : env 0 with
    | false => rw [he] at h; simp at h
    | true =>
      rw [he] at h
      simp only [if_true] at h
      obtain ⟨h1, h2, h3⟩ := ensureChains_ok env _ _ _ s1 cs1 h
      exact ⟨h1, h2, h3⟩

theorem ensureNftablesSetup_noop (env : Nat → Bool) (s : NftState)
    (h1 : s.natTable = true) (h2 : "PREROUTING" ∈ s.chains)
    (h3 : "POSTROUTING" ∈ s.chains) :
    ensureNftablesSetup env s = Except.ok (s, []) := by
  unfold ensureNftablesSetup ensureChains ensurePost
  rw [h1]
  simp [h2, h3]

/-! Unfolding lemma for open_proxy once validation has passed. -/

theorem openProxy_eq_of_valid (ipOk : String → Bool) (env cenv : Nat → Bool)
    (pm : ProxyManager) (s : NftState) (sid : String) (ingress : Nat) (tip : String)
    (tport : Int) (hip : ipOk tip = true) (htp : 1 ≤ tport ∧ tport ≤ 65535)
    (hig : 1024 ≤ ingress ∧ ingress ≤ 65535) :
    ProxyManager.openProxy ipOk env cenv pm s sid ingress tip tport =
      match (runSeq env 0 s (installCmds ingress tip tport (chainName sid))).2.2 with
      | none =>
          ⟨OpenOutcome.ok,
           ⟨dictInsert pm.proxies sid ⟨ingress, tip, tport, chainName sid⟩⟩,
           (runSeq env 0 s (installCmds ingress tip tport (chainName sid))).1,
           (runSeq env 0 s (installCmds ingress tip tport (chainName sid))).2.1,
           []⟩
      | some _ =>
          ⟨OpenOutcome.provisioningError,
           pm,
           (runBestEffort cenv 0
             (runSeq env 0 s (installCmds ingress tip tport (chainName sid))).1
             (cleanupCmds (chainName sid) (some (tip, tport)))).1,
           (runSeq env 0 s (installCmds ingress tip tport (chainName sid))).2.1,
           (runBestEffort cenv 0
             (runSeq env 0 s (installCmds ingress tip tport (chainName sid))).1
             (cleanupCmds (chainName sid) (some (tip, tport)))).2⟩ := by
  unfold ProxyManager.openProxy
  rw [hip]
  rw [if_neg (by simp), if_neg (not_not_intro htp), if_neg (not_not_intro hig)]

/-! Claim theorems. -/

/-- Claim C1 (code bug): at a concrete open call whose third install step
fails, the call does fail with the provisioning error, the rollback
sequence is issued and no session appears in list, but the allocated
ingress port 10000 is NOT returned to the free set: it stays recorded in
the allocated table because the endpoint never calls release on the
failure path. -/
theorem C1_port_leak_eval :
    (openEndpoint ipAlways (fun i => ! (i == 2)) allTrue stB0 "s" 10000 "10.0.0.5" 51820).1
        = ApiOpenResult.provisioningError ∧
    (openEndpoint ipAlways (fun i => ! (i == 2)) allTrue stB0 "s" 10000
        "10.0.0.5" 51820).2.proxies.listProxies = [] ∧
    (ProxyManager.openProxy ipAlways (fun i => ! (i == 2)) allTrue stB0.proxies stB0.nft
        "s" 10000 "10.0.0.5" 51820).cleanupIssued
        = cleanupCmds (chainName "s") (some ("10.0.0.5", 51820)) ∧
    10000 ∉ (openEndpoint ipAlways (fun i => ! (i == 2)) allTrue stB0 "s" 10000
        "10.0.0.5" 51820).2.ports.available_ports ∧
    (openEndpoint ipAlways (fun i => ! (i == 2)) allTrue stB0 "s" 10000
        "10.0.0.5" 51820).2.ports.allocated = [("s", 10000)] := by
  decide

/-- Claim C2 (amended): closing an existing session removes it from the
registry and returns its port to the free pool for every teardown oracle,
even when all provider calls fail; but the teardown failure is swallowed
inside close_proxy, so the call still answers closed. -/
theorem C2_amended (tenv : Nat → Bool) (st : SysState) (sid : String) (p : Nat)
    (hp : dictLookup sid st.ports.allocated = some p)
    (hs : (dictLookup sid st.proxies.proxies).isSome = true) :
    (closeEndpoint tenv st sid).1 = ApiCloseResult.closed ∧
    dictLookup sid (closeEndpoint tenv st sid).2.proxies.proxies = none ∧
    p ∈ (closeEndpoint tenv st sid).2.ports.available_ports := by
  obtain ⟨e, he⟩ := Option.isSome_iff_exists.mp hs
  have hclose : ProxyManager.closeProxy tenv st.proxies st.nft sid =
      ⟨⟨st.proxies.proxies.filter (fun x => ! decide (x.1 = sid))⟩,
       (runSeq tenv 0 st.nft (teardownCmds e)).1,
       (runSeq tenv 0 st.nft (teardownCmds e)).2.1,
       (runSeq tenv 0 st.nft (teardownCmds e)).2.2.isSome⟩ := by
    unfold ProxyManager.closeProxy
    rw [he]
  have hrel : st.ports.release sid =
      ⟨insert p st.ports.available_ports,
       st.ports.allocated.filter (fun x => ! decide (x.1 = sid))⟩ := by
    unfold PortManager.release
    rw [hp]
  have hend : closeEndpoint tenv st sid =
      (ApiCloseResult.closed,
       ⟨st.ports.release sid,
        (ProxyManager.closeProxy tenv st.proxies st.nft sid).pm,
        (ProxyManager.closeProxy tenv st.proxies st.nft sid).nft⟩) := by
    unfold closeEndpoint
    rw [hs]
    simp
  rw [hend]
  refine ⟨rfl, ?_, ?_⟩
  · rw [hclose]
    exact dictLookup_filter_self sid _
  · rw [hrel]
    exact Finset.mem_insert_self p _

/-- Claim C2 witness at a concrete session with every teardown call
failing. -/
theorem C2_amended_witness :
    (closeEndpoint allFalse stA "a").1 = ApiCloseResult.closed ∧
    dictLookup "a" (closeEndpoint allFalse stA "a").2.proxies.proxies = none ∧
    10000 ∈ (closeEndpoint allFalse stA "a").2.ports.available_ports :=
  C2_amended allFalse stA "a" 10000 (by decide) (by decide)

/-- Claim C2 counterexample: with every provider teardown call failing, the
teardown error is recorded internally, yet the close endpoint answers
closed: no teardown error reaches the caller. -/
theorem C2_counterexample :
    (ProxyManager.closeProxy allFalse pmA nftA "a").errored = true ∧
    (closeEndpoint allFalse stA "a").1 = ApiCloseResult.closed := by
  decide

/-- Claim C3 (amended): when teardown step k is the first to fail, only the
steps up to and including k are issued (the later steps are aborted by the
raised exception); the error is caught so the session is still removed from
the registry. -/
theorem C3_amended (tenv : Nat → Bool) (pm : ProxyManager) (s : NftState) (sid : String)
    (e : ProxyEntry) (he : dictLookup sid pm.proxies = some e)
    (k : Nat) (hk : k < 3) (hb : ∀ j, j < k → tenv j = true) (hf : tenv k = false) :
    (ProxyManager.closeProxy tenv pm s sid).issued = (teardownCmds e).take (k + 1) ∧
    (ProxyManager.closeProxy tenv pm s sid).errored = true ∧
    (ProxyManager.closeProxy tenv pm s sid).pm.proxies =
      pm.proxies.filter (fun x => ! decide (x.1 = sid)) := by
  have hclose : ProxyManager.closeProxy tenv pm s sid =
      ⟨⟨pm.proxies.filter (fun x => ! decide (x.1 = sid))⟩,
       (runSeq tenv 0 s (teardownCmds e)).1,
       (runSeq tenv 0 s (teardownCmds e)).2.1,
       (runSeq tenv 0 s (teardownCmds e)).2.2.isSome⟩ := by
    unfold ProxyManager.closeProxy
    rw [he]
  have hfail := runSeq_failure tenv (teardownCmds e) 0 s k
    (by simpa [teardownCmds] using hk)
    (by intro j hj; simpa using hb j hj)
    (by simpa using hf)
  rw [hclose]
  refine ⟨hfail.1, ?_, rfl⟩
  show (runSeq tenv 0 s (teardownCmds e)).2.2.isSome = true
  rw [hfail.2]
  rfl

/-- Claim C3 witness: first teardown step fails, only it is issued. -/
theorem C3_amended_witness :
    (ProxyManager.closeProxy allFalse pmA nftA "a").issued = (teardownCmds entryA).take 1 ∧
    (ProxyManager.closeProxy allFalse pmA nftA "a").errored = true ∧
    (ProxyManager.closeProxy allFalse pmA nftA "a").pm.proxies =
      pmA.proxies.filter (fun x => ! decide (x.1 = "a")) :=
  C3_amended allFalse pmA nftA "a" entryA (by decide) 0 (by decide)
    (fun j hj => absurd hj (by omega)) rfl

/-- Claim C3 counterexample: when the first teardown step (the masquerade
rule removal) fails, the flush and delete of the rule group are never
attempted, contradicting the claim that every subsequent step still runs. -/
theorem C3_counterexample :
    (ProxyManager.closeProxy (fun i => ! (i == 0)) pmA nftA "a").issued =
      [NftCmd.deleteRule "POSTROUTING" (NftRule.masq Proto.udp "10.0.0.5" 51820)] ∧
    NftCmd.flushChain "proxy_a" ∉
      (ProxyManager.closeProxy (fun i => ! (i == 0)) pmA nftA "a").issued ∧
    NftCmd.deleteChain "proxy_a" ∉
      (ProxyManager.closeProxy (fun i => ! (i == 0)) pmA nftA "a").issued := by
  decide

/-- Claim C4 (amended): whichever install step fails, the rollback is the
same fixed best-effort sequence, issued in full for every cleanup oracle
(so individual undo failures are ignored): delete the UDP return-path
masquerade rule, flush the rule group, delete the rule group.  It is not
the reversal of the steps 1..k-1 actually performed, and the dispatch rule
and TCP masquerade rule are never removed.  The open call still fails
cleanly: no session record is added. -/
theorem C4_amended (ipOk : String → Bool) (env cenv : Nat → Bool)
    (pm : ProxyManager) (s : NftState) (sid : String) (ingress : Nat) (tip : String)
    (tport : Int) (hip : ipOk tip = true) (htp : 1 ≤ tport ∧ tport ≤ 65535)
    (hig : 1024 ≤ ingress ∧ ingress ≤ 65535)
    (hfail : (ProxyManager.openProxy ipOk env cenv pm s sid ingress tip tport).outcome =
      OpenOutcome.provisioningError) :
    (ProxyManager.openProxy ipOk env cenv pm s sid ingress tip tport).cleanupIssued =
      [NftCmd.deleteRule "POSTROUTING" (NftRule.masq Proto.udp tip tport),
       NftCmd.flushChain (chainName sid),
       NftCmd.deleteChain (chainName sid)] ∧
    (ProxyManager.openProxy ipOk env cenv pm s sid ingress tip tport).pm = pm := by
  have heq := openProxy_eq_of_valid ipOk env cenv pm s sid ingress tip tport hip htp hig
  cases hr : (runSeq env 0 s (installCmds ingress tip tport (chainName sid))).2.2 with
  | none =>
    rw [heq, hr] at hfail
    exact OpenOutcome.noConfusion hfail
  | some k =>
    rw [heq, hr]
    exact ⟨runBestEffort_issued cenv _ 0 _, rfl⟩

/-- Claim C4 witness: failure at the very first install step. -/
theorem C4_amended_witness :
    (ProxyManager.openProxy ipAlways (fun i => ! (i == 0)) allTrue ⟨[]⟩ bootNft
        "a" 10000 "10.0.0.5" 51820).cleanupIssued =
      [NftCmd.deleteRule "POSTROUTING" (NftRule.masq Proto.udp "10.0.0.5" 51820),
       NftCmd.flushChain (chainName "a"),
       NftCmd.deleteChain (chainName "a")] ∧
    (ProxyManager.openProxy ipAlways (fun i => ! (i == 0)) allTrue ⟨[]⟩ bootNft
        "a" 10000 "10.0.0.5" 51820).pm = ⟨[]⟩ :=
  C4_amended ipAlways (fun i => ! (i == 0)) allTrue ⟨[]⟩ bootNft "a" 10000
    "10.0.0.5" 51820 rfl (by decide) (by decide) (by decide)

/-- Claim C4 counterexample: the install fails at step 1 (k = 1), so steps
1..k-1 is empty and the claimed rollback would undo nothing; yet the code
issues a delete for the step-5 masquerade rule that was never installed. -/
theorem C4_counterexample :
    (ProxyManager.openProxy ipAlways (fun i => ! (i == 0)) allTrue ⟨[]⟩ bootNft
        "b" 10000 "10.0.0.5" 51820).installIssued = [NftCmd.addChain "proxy_b"] ∧
    NftCmd.deleteRule "POSTROUTING" (NftRule.masq Proto.udp "10.0.0.5" 51820) ∈
      (ProxyManager.openProxy ipAlways (fun i => ! (i == 0)) allTrue ⟨[]⟩ bootNft
        "b" 10000 "10.0.0.5" 51820).cleanupIssued := by
  decide

/-- Claim C5 (confirmed): a validated open issues exactly the six install
commands in source order when it succeeds, and when step k is the first to
fail it has issued exactly the first k+1 commands — no later install step
is issued. -/
theorem C5_install_sequence (ipOk : String → Bool) (env cenv : Nat → Bool)
    (pm : ProxyManager) (s : NftState) (sid : String) (ingress : Nat) (tip : String)
    (tport : Int) (hip : ipOk tip = true) (htp : 1 ≤ tport ∧ tport ≤ 65535)
    (hig : 1024 ≤ ingress ∧ ingress ≤ 65535) :
    ((ProxyManager.openProxy ipOk env cenv pm s sid ingress tip tport).outcome =
        OpenOutcome.ok →
      (ProxyManager.openProxy ipOk env cenv pm s sid ingress tip tport).installIssued =
        [NftCmd.addChain (chainName sid),
         NftCmd.addRule (chainName sid) (NftRule.dnat Proto.udp ingress tip tport),
         NftCmd.addRule (chainName sid) (NftRule.dnat Proto.tcp ingress tip tport),
         NftCmd.addRule "PREROUTING" (NftRule.jump (chainName sid)),
         NftCmd.addRule "POSTROUTING" (NftRule.masq Proto.udp tip tport),
         NftCmd.addRule "POSTROUTING" (NftRule.masq Proto.tcp tip tport)]) ∧
    (∀ k, k < 6 → (∀ j, j < k → env j = true) → env k = false →
      (ProxyManager.openProxy ipOk env cenv pm s sid ingress tip tport).installIssued =
        (installCmds ingress tip tport (chainName sid)).take (k + 1)) := by
  have heq := openProxy_eq_of_valid ipOk env cenv pm s sid ingress tip tport hip htp hig
  constructor
  · intro hok
    cases hr : (runSeq env 0 s (installCmds ingress tip tport (chainName sid))).2.2 with
    | none =>
      rw [heq, hr]
      exact (runSeq_issued_of_none env _ 0 s hr).1
    | some k =>
      rw [heq, hr] at hok
      exact OpenOutcome.noConfusion hok
  · intro k hk hb hf
    have hfail := runSeq_failure env (installCmds ingress tip tport (chainName sid)) 0 s k
      (by simpa [installCmds] using hk)
      (by intro j hj; simpa using hb j hj)
      (by simpa using hf)
    rw [heq, hfail.2]
    exact hfail.1

/-- Claim C5 witness: all provider calls succeed at a concrete input. -/
theorem C5_install_sequence_witness :
    (ProxyManager.openProxy ipAlways allTrue allTrue ⟨[]⟩ bootNft
        "a" 10000 "10.0.0.5" 51820).installIssued =
      [NftCmd.addChain (chainName "a"),
       NftCmd.addRule (chainName "a") (NftRule.dnat Proto.udp 10000 "10.0.0.5" 51820),
       NftCmd.addRule (chainName "a") (NftRule.dnat Proto.tcp 10000 "10.0.0.5" 51820),
       NftCmd.addRule "PREROUTING" (NftRule.jump (chainName "a")),
       NftCmd.addRule "POSTROUTING" (NftRule.masq Proto.udp "10.0.0.5" 51820),
       NftCmd.addRule "POSTROUTING" (NftRule.masq Proto.tcp "10.0.0.5" 51820)] :=
  (C5_install_sequence ipAlways allTrue allTrue ⟨[]⟩ bootNft "a" 10000 "10.0.0.5" 51820
    rfl (by decide) (by decide)).1 (by decide)

/-- Claim C6 (amended): a session is recorded in the registry by open only
when all six install steps succeeded, and immediately after that open it is
fully installed; a failed open leaves the registry unchanged.  The global
claim that every listed session always has all of its rules is refuted by
the counterexample: a later failed open for the same target endpoint
deletes a listed session's UDP masquerade rule during rollback. -/
theorem C6_amended (ipOk : String → Bool) (env cenv : Nat → Bool)
    (pm : ProxyManager) (s : NftState) (sid : String) (ingress : Nat) (tip : String)
    (tport : Int) (hip : ipOk tip = true) (htp : 1 ≤ tport ∧ tport ≤ 65535)
    (hig : 1024 ≤ ingress ∧ ingress ≤ 65535) :
    ((ProxyManager.openProxy ipOk env cenv pm s sid ingress tip tport).outcome =
        OpenOutcome.ok →
      dictLookup sid (ProxyManager.openProxy ipOk env cenv pm s sid ingress tip
          tport).pm.proxies = some ⟨ingress, tip, tport, chainName sid⟩ ∧
      fullyInstalled ⟨ingress, tip, tport, chainName sid⟩
        (ProxyManager.openProxy ipOk env cenv pm s sid ingress tip tport).nft) ∧
    ((ProxyManager.openProxy ipOk env cenv pm s sid ingress tip tport).outcome ≠
        OpenOutcome.ok →
      (ProxyManager.openProxy ipOk env cenv pm s sid ingress tip tport).pm = pm) := by
  have heq := openProxy_eq_of_valid ipOk env cenv pm s sid ingress tip tport hip htp hig
  cases hr : (runSeq env 0 s (installCmds ingress tip tport (chainName sid))).2.2 with
  | none =>
    constructor
    · intro _
      rw [heq, hr]
      constructor
      · exact dictLookup_dictInsert pm.proxies sid ⟨ingress, tip, tport, chainName sid⟩
      · have hstate := (runSeq_issued_of_none env _ 0 s hr).2
        have hfi := fullyInstalled_install s ingress tip tport (chainName sid)
        rw [← hstate] at hfi
        exact hfi
    · intro hne
      rw [heq, hr] at hne
      exact absurd rfl hne
  | some k =>
    constructor
    · intro hok
      rw [heq, hr] at hok
      exact OpenOutcome.noConfusion hok
    · intro _
      rw [heq, hr]

/-- Claim C6 witness: a fully successful open records the session and all
six of its rules exist. -/
theorem C6_amended_witness :
    dictLookup "a" (ProxyManager.openProxy ipAlways allTrue allTrue ⟨[]⟩ bootNft
        "a" 10000 "10.0.0.5" 51820).pm.proxies =
      some ⟨10000, "10.0.0.5", 51820, chainName "a"⟩ ∧
    fullyInstalled ⟨10000, "10.0.0.5", 51820, chainName "a"⟩
      (ProxyManager.openProxy ipAlways allTrue allTrue ⟨[]⟩ bootNft
        "a" 10000 "10.0.0.5" 51820).nft :=
  (C6_amended ipAlways allTrue allTrue ⟨[]⟩ bootNft "a" 10000 "10.0.0.5" 51820
    rfl (by decide) (by decide)).1 (by decide)

/-- Claim C6 counterexample: session a is opened successfully, then a
second open for the same target fails at its first step; the rollback of
the failed open deletes the UDP masquerade rule of session a, so list still
shows session a although not all of its forwarding rules exist. -/
theorem C6_counterexample :
    (openEndpoint ipAlways allTrue allTrue stB0 "a" 10000 "10.0.0.5" 51820).1
        = ApiOpenResult.ok "a" 10000 ∧
    (openEndpoint ipAlways (fun i => ! (i == 0)) allTrue stB1 "b" 10001
        "10.0.0.5" 51820).1 = ApiOpenResult.provisioningError ∧
    ("a", 10000, "10.0.0.5", (51820 : Int)) ∈ stB2.proxies.listProxies ∧
    ¬ fullyInstalled ⟨10000, "10.0.0.5", 51820, "proxy_a"⟩ stB2.nft := by
  decide

/-- Claim C7 (confirmed): under invariant I1 the free and allocated port
counts always cover the range exactly; allocate for a fresh session id and
release both preserve the invariant, and the initial pool satisfies it. -/
theorem C7_conservation (rng : Finset Nat) (pm : PortManager) (h : pm.inv rng) :
    pm.available_ports.card + pm.allocated.length = rng.card ∧
    (∀ sid p, p ∈ pm.available_ports → sid ∉ pm.allocated.map Prod.fst →
      (pm.allocate sid p).inv rng) ∧
    (∀ sid, (pm.release sid).inv rng) ∧
    (PortManager.init 10000 20000).inv (Finset.Ico 10000 20000) := by
  refine ⟨PortManager.inv_card pm rng h, ?_, ?_, ?_⟩
  · intro sid p hp hfresh
    exact PortManager.inv_allocate pm rng h sid p hp hfresh
  · intro sid
    exact PortManager.inv_release pm rng h sid
  · unfold PortManager.init PortManager.inv
    simp

/-- Claim C7 witness at a concrete two-port pool. -/
theorem C7_conservation_witness :
    (⟨{10000, 10001}, []⟩ : PortManager).available_ports.card +
        (⟨{10000, 10001}, []⟩ : PortManager).allocated.length =
        ({10000, 10001} : Finset Nat).card ∧
    (∀ sid p, p ∈ (⟨{10000, 10001}, []⟩ : PortManager).available_ports →
      sid ∉ (⟨{10000, 10001}, []⟩ : PortManager).allocated.map Prod.fst →
      ((⟨{10000, 10001}, []⟩ : PortManager).allocate sid p).inv {10000, 10001}) ∧
    (∀ sid, ((⟨{10000, 10001}, []⟩ : PortManager).release sid).inv {10000, 10001}) ∧
    (PortManager.init 10000 20000).inv (Finset.Ico 10000 20000) :=
  C7_conservation {10000, 10001} ⟨{10000, 10001}, []⟩ (by decide)

/-- Claim C8 (confirmed): a request whose target ip fails the ip-literal
check or whose target port is outside 1..65535 is rejected by the pydantic
request validation before the endpoint body runs: the call fails with the
validation error and the whole service state, the port pool included, is
returned unchanged. -/
theorem C8_validation (ipOk : String → Bool) (env cenv : Nat → Bool) (st : SysState)
    (sid : String) (p : Nat) (tip : String) (tport : Int)
    (h : ipOk tip = false ∨ tport < 1 ∨ 65535 < tport) :
    openApi ipOk env cenv st sid p tip tport = (ApiOpenResult.validationError, st) := by
  unfold openApi
  rw [if_neg]
  rintro ⟨h1, h2, h3⟩
  rcases h with hc | hc | hc
  · rw [h1] at hc
    exact Bool.noConfusion hc
  · omega
  · omega

/-- Claim C8 witness: the request of spec Scenario C. -/
theorem C8_validation_witness :
    openApi (fun _ => false) allTrue allTrue stA "x" 10000 "not-an-ip" 1 =
      (ApiOpenResult.validationError, stA) :=
  C8_validation (fun _ => false) allTrue allTrue stA "x" 10000 "not-an-ip" 1 (Or.inl rfl)

/-- Claim C9 (confirmed): after any successful bootstrap, running the
bootstrap again (under any oracle) issues no create command, raises no
error, and leaves the provider hook state unchanged, so N calls act as
one. -/
theorem C9_bootstrap_idempotent (env env2 : Nat → Bool) (s s1 : NftState)
    (cs : List NftCmd) (h : ensureNftablesSetup env s = Except.ok (s1, cs)) :
    ensureNftablesSetup env2 s1 = Except.ok (s1, []) := by
  obtain ⟨h1, h2, h3⟩ := ensureNftablesSetup_ok env s s1 cs h
  exact ensureNftablesSetup_noop env2 s1 h1 h2 h3

/-- Claim C9 witness: bootstrap from a bare host, then again. -/
theorem C9_bootstrap_idempotent_witness :
    ensureNftablesSetup allTrue bootNft = Except.ok (bootNft, []) :=
  C9_bootstrap_idempotent allTrue allTrue ⟨false, [], []⟩ bootNft
    [NftCmd.addTable, NftCmd.addHookChain "PREROUTING",
     NftCmd.addHookChain "POSTROUTING"] rfl

/-- Claim C10 (amended): the default initial free set is exactly the
half-open range 10000..19999 (Python range excludes the end point 20000),
and under invariant I1 any port popped by allocate lies inside the
configured range. -/
theorem C10_amended (rng : Finset Nat) (pm : PortManager) (h : pm.inv rng)
    (sid : String) (p : Nat) (hp : p ∈ pm.available_ports) :
    (PortManager.init 10000 20000).available_ports = Finset.Ico 10000 20000 ∧
    p ∈ rng := by
  refine ⟨rfl, ?_⟩
  have hu := h.2.2.2
  rw [← hu]
  exact Finset.mem_union_left _ hp

/-- Claim C10 witness at a concrete pool and port. -/
theorem C10_amended_witness :
    (PortManager.init 10000 20000).available_ports = Finset.Ico 10000 20000 ∧
    10000 ∈ ({10000, 10001} : Finset Nat) :=
  C10_amended {10000, 10001} ⟨{10000, 10001}, []⟩ (by decide) "x" 10000 (by decide)

/-- Claim C10 counterexample: 20000 is not in the initial free set, because
set(range(10000, 20000)) stops at 19999; the claim that the free set
contains every integer through 20000 is false. -/
theorem C10_counterexample :
    (20000 : Nat) ∉ (PortManager.init 10000 20000).available_ports := by
  simp [PortManager.init]
